import Mathlib

/-!
Shallow embedding of the deno-script task runner core.

The embedding covers:
* the task dispatcher `runTasks` and the entry point `run` (run.ts),
* the command executor `exec` / `_exec` (exec.ts).

External collaborators (the hierarchical logger, CLI flag parsing, the
deno standard library path/url helpers, the operating system) are modelled
as explicit data: a `Fs` record supplies the set of existing directories,
the ambient process environment and the behaviour of spawned processes;
logging is recorded as a trace of `LogEvent`s; the working directory is
threaded through every operation as an explicit `String` state.
-/

namespace DenoScript

/-- A value thrown by JavaScript code: a thrown string, an `Error` with a
message, or a `TypeError` (as raised when `.catch` is called on a value
that is not a promise). -/
inductive JsErr where
  | str : String → JsErr
  | err : String → JsErr
  | typeErr : String → JsErr
  deriving Repr, DecidableEq

/-- The outcome of awaiting a JavaScript call `f(...)`: the call returned a
promise that resolved, returned a promise that rejected, threw
synchronously, or returned a plain value that is not a promise (and so has
no `catch` method). -/
inductive TaskOutcome where
  | resolved : TaskOutcome
  | rejected : JsErr → TaskOutcome
  | thrown : JsErr → TaskOutcome
  | nonPromise : TaskOutcome
  deriving Repr, DecidableEq

/-- The `TypeError` produced by `x.catch(...)` when `x` has no `catch`
method. -/
def catchTypeErr : JsErr := .typeErr ".catch is not a function"

/-- Semantics of `await f(...).catch((err) => { throw err })`:
`none` means the await succeeded, `some e` means the error `e` escaped.
A non-promise return value makes the `.catch` property access itself blow
up with a `TypeError`. -/
def awaitCatch : TaskOutcome → Option JsErr
  | .resolved => none
  | .rejected e => some e
  | .thrown e => some e
  | .nonPromise => some catchTypeErr

/-- Parsed CLI flags handed to each task (the `taskArgs` object minus the
positional `_` entry), modelled as a flag-name/value association list. -/
def Args := List (String × String)

/-- Task context (run.ts): the shared parsed args plus a logger scoped to
`task.<taskName>`; the logger is modelled by its name. -/
structure TaskContext where
  args : List (String × String)
  logName : String

/-- A task: receives its context and the current working directory, and
produces the outcome of `await`ing it together with the working directory
it leaves behind (a task body may itself call `Deno.chdir`). -/
def Task := TaskContext → String → TaskOutcome × String

/-- A named-task registry (`NamedTasks` in run.ts): task name to task. -/
def NamedTasks := List (String × Task)

/-- JavaScript object property lookup on a registry. -/
def findTask (m : NamedTasks) (k : String) : Option Task :=
  (List.find? (fun p => p.fst = k) m).map Prod.snd

/-- JavaScript `s.replace('-', '_')`: replaces only the FIRST occurrence
of `-` (a string pattern to `String.prototype.replace` is not global). -/
def replaceFirstDash : List Char → List Char
  | [] => []
  | c :: cs => if c = '-' then '_' :: cs else c :: replaceFirstDash cs

/-- The dispatcher's name normalization, run.ts line 186:
`tasksToRun[i].replace('-', '_')`. -/
def normalizeTaskName (s : String) : String :=
  ⟨replaceFirstDash s.data⟩

/-- Task resolution, run.ts lines 187-194: exact key in the user registry,
else `task_<name>` in the user registry, else exact key in the builtin
registry. -/
def resolveTask (userTasks builtinsTasks : NamedTasks) (name : String) :
    Option Task :=
  match findTask userTasks name with
  | some t => some t
  | none =>
    match findTask userTasks ("task_" ++ name) with
    | some t => some t
    | none => findTask builtinsTasks name

/-- A log call recorded by the dispatcher: `log.error(msg, err?)` or
`log.debug(msg)`. -/
inductive LogEvent where
  | error : String → Option JsErr → LogEvent
  | debug : String → LogEvent
  deriving Repr, DecidableEq

/-- The error logged when a requested task resolves nowhere (run.ts
lines 196-198). -/
def missingLog (name : String) : LogEvent :=
  .error ("could not find task function '" ++ name ++
    "'. Run '_help' to show available tasks") none

/-- The debug line logged before a task runs (run.ts line 201). -/
def debugLog (name : String) : LogEvent :=
  .debug ("running task: '" ++ name ++ "'")

/-- The error logged when a task's invocation fails (run.ts line 211). -/
def threwLog (name : String) (e : JsErr) : LogEvent :=
  .error ("Task '" ++ name ++ "' threw an error") (some e)

/-- The string re-thrown by the dispatcher (run.ts line 212). The source
template literal has no closing quote after the task name; kept verbatim. -/
def threwMsg (name : String) : String :=
  "Task '" ++ name ++ " threw an error"

/-- How a `runTasks` call ended: returned normally having run every task,
returned early because a task name resolved nowhere (the `return` at
run.ts line 199), or raised. -/
inductive DispatchOutcome where
  | ok : DispatchOutcome
  | halted : DispatchOutcome
  | raised : String → DispatchOutcome
  deriving Repr, DecidableEq

/-- Result of a `runTasks` call: the normalized names whose task function
was invoked (in order), the log trace, how the call ended, and the final
working directory. -/
structure DispatchResult where
  executed : List String
  logs : List LogEvent
  outcome : DispatchOutcome
  cwd : String
  deriving Repr, DecidableEq

/-- The task context built per task (run.ts lines 203-206): a shallow copy
of the shared args and a logger named `task.<name>`. -/
def mkTaskContext (taskArgs : Args) (name : String) : TaskContext :=
  { args := taskArgs, logName := "task." ++ name }

/-- The dispatcher loop, run.ts lines 178-215 (`runTasks`). Parameters
follow the source signature (user tasks, builtin tasks, names to run, the
shared args) with the working directory threaded explicitly. -/
def runTasks (userTasks builtinsTasks : NamedTasks) :
    List String → Args → String → DispatchResult
  | [], _, cwd => ⟨[], [], .ok, cwd⟩
  | n :: rest, taskArgs, cwd =>
    match resolveTask userTasks builtinsTasks (normalizeTaskName n) with
    | none =>
      ⟨[], [missingLog (normalizeTaskName n)], .halted, cwd⟩
    | some t =>
      match awaitCatch
          (t (mkTaskContext taskArgs (normalizeTaskName n)) cwd).fst with
      | some e =>
        ⟨[normalizeTaskName n],
          [debugLog (normalizeTaskName n),
            threwLog (normalizeTaskName n) e],
          .raised (threwMsg (normalizeTaskName n)),
          (t (mkTaskContext taskArgs (normalizeTaskName n)) cwd).snd⟩
      | none =>
        let k := runTasks userTasks builtinsTasks rest taskArgs
          (t (mkTaskContext taskArgs (normalizeTaskName n)) cwd).snd
        ⟨normalizeTaskName n :: k.executed,
          debugLog (normalizeTaskName n) :: k.logs, k.outcome, k.cwd⟩

/-- Result of a spawned process (`Deno.run` with piped stdout/stderr):
whether it exited successfully, its exit code, and its decoded output
streams (text decoding is modelled as the identity). -/
structure ProcResult where
  success : Bool
  code : Nat
  stdout : String
  stderr : String
  deriving Repr, DecidableEq

/-- The world outside the program: which directories exist (`Deno.chdir`
to a listed directory succeeds and makes it the working directory), the
ambient process environment, what each spawned process does given its argv
and effective environment, the platform flag, and the promise outcome of
`Deno.remove` on the deno cache directory (used by the `_cache_clear`
builtin). -/
structure Fs where
  dirs : List String
  env : List (String × String)
  run : List String → List (String × String) → ProcResult
  isWindows : Bool := false
  cacheClearOutcome : TaskOutcome := .resolved

/-- JavaScript truthiness of an optional string (`if (opts.dir)`,
`if (!runDir)`): the empty string is falsy. -/
def truthyStr : Option String → Option String
  | some s => if s = "" then none else some s
  | none => none

/-- `Deno.run`'s environment handling with `clearEnv` unset: the supplied
variables are laid over the inherited ambient environment. -/
def mergeEnv (ambient : List (String × String))
    (override : List (String × String)) : List (String × String) :=
  (ambient.filter fun p => (override.lookup p.fst).isNone) ++ override

/-- A command given to the executor (the `cmd` field of exec.ts): a single
command string, an array (which `exec` runs as a SEQUENCE of command
strings), or a zero-argument function. A function may move the working
directory, so it threads it like a task body. -/
inductive Cmd where
  | str : String → Cmd
  | list : List String → Cmd
  | fn : (String → TaskOutcome × String) → Cmd

/-- The rendering of a `cmd` inside a template literal such as
`cmd='${opts.cmd}'`: a string stands as itself, an array joins with
commas, a function stringifies to its source text (modelled opaquely). -/
def cmdDisplay : Cmd → String
  | .str s => s
  | .list l => String.intercalate "," l
  | .fn _ => "[function]"

/-- The options object of exec.ts after input normalization. -/
structure ExecOpts where
  cmd : Cmd
  dir : Option String := none
  env : Option (List (String × String)) := none
  silent : Option Bool := none
  logError : Option Bool := none

/-- The union accepted by `exec`: a bare string, a bare array, or an
options object. -/
inductive ExecInput where
  | plainStr : String → ExecInput
  | plainList : List String → ExecInput
  | opts : ExecOpts → ExecInput

/-- Input normalization, exec.ts lines 22-26: a bare string or array is
wrapped as `{cmd: <value>}`. -/
def normalizeExecInput : ExecInput → ExecOpts
  | .plainStr s => { cmd := .str s }
  | .plainList l => { cmd := .list l }
  | .opts o => o

/-- Errors raised by the executor, modelled structurally (each constructor
carries the data the corresponding thrown `Error`'s message interpolates).
`wrapped` is the re-throw at exec.ts lines 73-77, which serializes the
options and the caught inner error into a new `Error`. -/
inductive ExecErr where
  | chdirFail : String → String → ExecErr
  | runFail : String → Nat → String → ExecErr
  | jsErr : JsErr → ExecErr
  | restoreFail : String → ExecErr
  | wrapped : ExecErr → ExecErr
  deriving Repr, DecidableEq

/-- One `Deno.run` spawn: the argv, the effective environment the process
saw, and what it did. -/
structure SpawnRec where
  argv : List String
  env : List (String × String)
  result : ProcResult
  deriving Repr, DecidableEq

/-- JavaScript `s.split(' ')` on the character list: splits at every
single space, keeping empty pieces. -/
def splitChars : List Char → List (List Char)
  | [] => [[]]
  | c :: cs =>
    if c = ' ' then [] :: splitChars cs
    else
      match splitChars cs with
      | [] => [[c]]
      | w :: ws => (c :: w) :: ws

/-- JavaScript `s.split(' ')` (exec.ts line 94): no shell-quoting
awareness, every single space separates. -/
def splitOnSpace (s : String) : List String :=
  (splitChars s.data).map fun w => ⟨w⟩

/-- The single-process helper `_exec` (exec.ts lines 87-126), at the
string-command instance `exec` always uses: splits the command string on
single spaces, spawns it, returns the decoded stdout on success and throws
an error carrying the command text, the exit code and the decoded stderr
on a non-zero exit. Also returns the spawn record for the trace. -/
def _exec (fs : Fs) (cmd : String) (env : Option (List (String × String))) :
    SpawnRec × Except ExecErr String :=
  let argv := splitOnSpace cmd
  let eff := match env with
    | none => fs.env
    | some e => mergeEnv fs.env e
  let r := fs.run argv eff
  if r.success then (⟨argv, eff, r⟩, .ok r.stdout)
  else (⟨argv, eff, r⟩, .error (.runFail cmd r.code r.stderr))

/-- The sequence loop of exec.ts lines 41-48: run each command string in
order with `_exec` (note: no env is forwarded), collecting outputs, and
stop at the first failure. -/
def execList (fs : Fs) : List String → List SpawnRec × Except ExecErr (List String)
  | [] => ([], .ok [])
  | c :: cs =>
    match (_exec fs c none).snd with
    | .error e => ([(_exec fs c none).fst], .error e)
    | .ok out =>
      match (execList fs cs).snd with
      | .error e => ((_exec fs c none).fst :: (execList fs cs).fst, .error e)
      | .ok outs =>
        ((_exec fs c none).fst :: (execList fs cs).fst, .ok (out :: outs))

/-- What one `exec` body run produced before the catch/finally wrappers:
its result, the working directory it left, the spawns it made and the
console echoes it printed. -/
structure BodyOut where
  res : Except ExecErr String
  cwd : String
  spawned : List SpawnRec
  echoed : List String

/-- The `try` body of exec.ts lines 37-68: dispatch on the shape of `cmd`.
An array is a sequence of command strings; outputs are newline-joined.
Echoing happens only under `opts.silent == false` (loose equality: true
exactly when `silent` is explicitly `false`). A function command is
awaited through `.catch`, so a non-promise return raises a `TypeError`;
it captures no output. -/
def execBody (fs : Fs) (o : ExecOpts) (cwd : String) : BodyOut :=
  match o.cmd with
  | .list cs =>
    match (execList fs cs).snd with
    | .error e => ⟨.error e, cwd, (execList fs cs).fst, []⟩
    | .ok outs =>
      ⟨.ok (String.intercalate "\n" outs), cwd, (execList fs cs).fst,
        if o.silent = some false then [String.intercalate "\n" outs] else []⟩
  | .str s =>
    match (_exec fs s none).snd with
    | .error e => ⟨.error e, cwd, [(_exec fs s none).fst], []⟩
    | .ok out =>
      ⟨.ok out, cwd, [(_exec fs s none).fst],
        if o.silent = some false then [out] else []⟩
  | .fn f =>
    match awaitCatch (f cwd).fst with
    | none => ⟨.ok "", (f cwd).snd, [], []⟩
    | some e => ⟨.error (.jsErr e), (f cwd).snd, [], []⟩

/-- The full result of an `exec` call: the returned string or the thrown
error, the working directory after the call, the spawn trace, the console
echoes, and the errors passed to `log.error`. -/
structure ExecResult where
  result : Except ExecErr String
  cwd : String
  spawned : List SpawnRec
  echoed : List String
  errorLogs : List ExecErr

/-- The catch/finally wrapping of exec.ts lines 69-82 applied to a body
result: an error escaping the body is logged (unless `logError` is
explicitly `false`) and re-thrown wrapped; then, when a truthy `dir` was
set, the original working directory is restored — a failed restore throws
out of the `finally`, replacing the result. -/
def execWrap (fs : Fs) (o : ExecOpts) (cwdOrginal : String) (b : BodyOut) :
    ExecResult :=
  let res := match b.res with
    | .ok v => Except.ok v
    | .error e => Except.error (ExecErr.wrapped e)
  let logs := match b.res with
    | .ok _ => []
    | .error e => if o.logError = some false then [] else [e]
  match truthyStr o.dir with
  | none => ⟨res, b.cwd, b.spawned, b.echoed, logs⟩
  | some _ =>
    if cwdOrginal ∈ fs.dirs then
      ⟨res, cwdOrginal, b.spawned, b.echoed, logs⟩
    else
      ⟨.error (.restoreFail cwdOrginal), b.cwd, b.spawned, b.echoed, logs⟩

/-- The executor `exec` (exec.ts lines 10-83). The input is normalized;
a truthy `dir` is entered before the `try` block, and a failing
`Deno.chdir` there throws an error naming the directory and the command
WITHOUT running anything, unwrapped and unlogged (that throw precedes the
`try`); otherwise the body runs under catch/finally. -/
def exec (fs : Fs) (cwd0 : String) (input : ExecInput) : ExecResult :=
  let o := normalizeExecInput input
  match truthyStr o.dir with
  | some d =>
    if d ∈ fs.dirs then
      execWrap fs o cwd0 (execBody fs o d)
    else
      ⟨.error (.chdirFail d (cmdDisplay o.cmd)), cwd0, [], [], []⟩
  | none => execWrap fs o cwd0 (execBody fs o cwd0)

/-- `new URL(u).pathname` for the URLs used as `import.meta.url`: the part
after the scheme and authority, starting at `/`. A string without a scheme
is returned unchanged (model fallback). -/
def urlPathname (u : String) : String :=
  match u.splitOn "://" with
  | [_, rest] => "/" ++ String.intercalate "/" ((rest.splitOn "/").drop 1)
  | _ => u

/-- `path.dirname` of the deno std path module, for already-clean paths:
everything before the last `/`; `.` when there is no slash; `/` when the
directory part is empty. -/
def dirname (p : String) : String :=
  let parts := p.splitOn "/"
  if parts.length ≤ 1 then "."
  else
    let joined := String.intercalate "/" parts.dropLast
    if joined = "" then "/" else joined

/-- `path.join` of the deno std path module, for already-clean segments. -/
def pathJoin (a b : String) : String :=
  if a.endsWith "/" then a ++ b else a ++ "/" ++ b

/-- The run options (run.ts `RunOpts`). The source field `default` is
named `defaultTask` here; `meta` carries `import.meta.url` when present
(the object is truthy whenever it is present at all). -/
structure RunOpts where
  dir : Option String := none
  defaultTask : Option String := none
  logLevel : Option String := none
  tasks : NamedTasks
  meta : Option String := none

/-- The parsed CLI arguments as `run` consumes them: the positional `_`
list, the `help` flag, the `--log` flag, and the remaining flags that are
handed to every task context. -/
structure TaskArgsModel where
  positional : List String
  help : Bool := false
  log : Option String := none
  extra : Args := []

/-- `setWorkingDir` (run.ts lines 145-168): requires `meta`, does nothing
for a falsy `dir`, otherwise changes to the directory derived from the
calling script's location joined with `dir`. Returns the new working
directory, or the thrown error. -/
def setWorkingDir (fs : Fs) (opts : RunOpts) (cwd : String) :
    Except JsErr String :=
  match opts.meta with
  | none =>
    .error (.str ("No 'meta' (import.meta.url) set on RunArgs. THis " ++
      "needs to be set to calculate the basedir to use for all path " ++
      "related operations"))
  | some metaUrl =>
    match truthyStr opts.dir with
    | none => .ok cwd
    | some runDir =>
      let entryScript0 := urlPathname metaUrl
      let entryScript :=
        if fs.isWindows then entryScript0.drop 1 else entryScript0
      let baseDir := pathJoin (dirname entryScript) runDir
      if baseDir ∈ fs.dirs then .ok baseDir
      else .error (.err ("chdir failed: " ++ baseDir))

/-- `newBuiltinsTasks` (run.ts lines 64-100): the registry holding
`_cache_clear` and `_help`. `_cache_clear` awaits `Deno.remove` on the
cache directory, whose promise outcome the world supplies; `_help` only
prints text (help-text generation is an excluded collaborator) and always
resolves. Neither touches the working directory. -/
def newBuiltinsTasks (fs : Fs) (_namedTasks : NamedTasks) : NamedTasks :=
  [("_cache_clear", fun _ cwd => (fs.cacheClearOutcome, cwd)),
   ("_help", fun _ cwd => (.resolved, cwd))]

/-- The outcome of a whole `run` call: the working directory the process
is left in, the error that escaped (if any), and the dispatcher result
when dispatch was reached. -/
structure RunResult where
  cwd : String
  raised : Option JsErr := none
  dispatch : Option DispatchResult := none

/-- The entry point `run` (run.ts lines 112-139): pick the task list
(positional names, else the default task — `opts.default || '_help'`,
empty string falsy — all overridden by `--help`), remember the working
directory, enter the configured base directory, dispatch, and restore the
original working directory in a `finally` (a failing restore throws,
replacing the outcome). Log-level plumbing touches only the excluded
logger collaborator and is not modelled. -/
def run (fs : Fs) (cwd0 : String) (opts : RunOpts)
    (taskArgs : TaskArgsModel) : RunResult :=
  let defaultTaskName := match truthyStr opts.defaultTask with
    | some s => s
    | none => "_help"
  let tasks1 := if taskArgs.positional.isEmpty then [defaultTaskName]
    else taskArgs.positional
  let tasks2 := if taskArgs.help then ["_help"] else tasks1
  match setWorkingDir fs opts cwd0 with
  | .error e => { cwd := cwd0, raised := some e }
  | .ok cwd1 =>
    let builtinTasks := newBuiltinsTasks fs opts.tasks
    let r := runTasks opts.tasks builtinTasks tasks2 taskArgs.extra cwd1
    if cwd0 ∈ fs.dirs then
      { cwd := cwd0,
        raised := match r.outcome with
          | .raised m => some (.str m)
          | _ => none,
        dispatch := some r }
    else
      { cwd := r.cwd, raised := some (.err ("chdir failed: " ++ cwd0)),
        dispatch := some r }

end DenoScript

namespace DenoScript

theorem runTasks_cons_missing (u b : NamedTasks) (args : Args) (n : String)
    (l : List String) (cwd : String)
    (hres : resolveTask u b (normalizeTaskName n) = none) :
    runTasks u b (n :: l) args cwd =
      ⟨[], [missingLog (normalizeTaskName n)], .halted, cwd⟩ := by
  simp [runTasks, hres]

theorem runTasks_cons_failed (u b : NamedTasks) (args : Args) (n : String)
    (l : List String) (cwd : String) (t : Task) (e : JsErr)
    (hres : resolveTask u b (normalizeTaskName n) = some t)
    (hac : awaitCatch (t (mkTaskContext args (normalizeTaskName n)) cwd).fst
      = some e) :
    runTasks u b (n :: l) args cwd =
      ⟨[normalizeTaskName n],
        [debugLog (normalizeTaskName n), threwLog (normalizeTaskName n) e],
        .raised (threwMsg (normalizeTaskName n)),
        (t (mkTaskContext args (normalizeTaskName n)) cwd).snd⟩ := by
  simp [runTasks, hres, hac]

theorem runTasks_cons_ok (u b : NamedTasks) (args : Args) (n : String)
    (l : List String) (cwd : String) (t : Task)
    (hres : resolveTask u b (normalizeTaskName n) = some t)
    (hac : awaitCatch (t (mkTaskContext args (normalizeTaskName n)) cwd).fst
      = none) :
    runTasks u b (n :: l) args cwd =
      ⟨normalizeTaskName n ::
          (runTasks u b l args
            (t (mkTaskContext args (normalizeTaskName n)) cwd).snd).executed,
        debugLog (normalizeTaskName n) ::
          (runTasks u b l args
            (t (mkTaskContext args (normalizeTaskName n)) cwd).snd).logs,
        (runTasks u b l args
          (t (mkTaskContext args (normalizeTaskName n)) cwd).snd).outcome,
        (runTasks u b l args
          (t (mkTaskContext args (normalizeTaskName n)) cwd).snd).cwd⟩ := by
  simp [runTasks, hres, hac]

theorem runTasks_append (u b : NamedTasks) (args : Args) (rest : List String) :
    ∀ (pre : List String) (cwd : String),
      (runTasks u b pre args cwd).outcome = .ok →
      runTasks u b (pre ++ rest) args cwd =
        ⟨(runTasks u b pre args cwd).executed ++
            (runTasks u b rest args (runTasks u b pre args cwd).cwd).executed,
          (runTasks u b pre args cwd).logs ++
            (runTasks u b rest args (runTasks u b pre args cwd).cwd).logs,
          (runTasks u b rest args (runTasks u b pre args cwd).cwd).outcome,
          (runTasks u b rest args (runTasks u b pre args cwd).cwd).cwd⟩ := by
  intro pre
  induction pre with
  | nil =>
    intro cwd _
    simp [runTasks]
  | cons n pre ih =>
    intro cwd h
    cases hres : resolveTask u b (normalizeTaskName n) with
    | none =>
      rw [runTasks_cons_missing u b args n pre cwd hres] at h
      simp at h
    | some t =>
      cases hac : awaitCatch
          (t (mkTaskContext args (normalizeTaskName n)) cwd).fst with
      | some e =>
        rw [runTasks_cons_failed u b args n pre cwd t e hres hac] at h
        simp at h
      | none =>
        rw [runTasks_cons_ok u b args n pre cwd t hres hac] at h
        simp only at h
        rw [List.cons_append,
          runTasks_cons_ok u b args n (pre ++ rest) cwd t hres hac,
          runTasks_cons_ok u b args n pre cwd t hres hac,
          ih _ h]
        simp

/-- A sample task whose invocation resolves, used in concrete evaluations. -/
def trivialTask : Task := fun _ cwd => (.resolved, cwd)

/-- A sample task whose invocation throws `e`, used in concrete evaluations. -/
def throwingTask (e : JsErr) : Task := fun _ cwd => (.thrown e, cwd)

/-- A sample synchronous task returning a non-promise value, used in
concrete evaluations. -/
def nonPromiseTask : Task := fun _ cwd => (.nonPromise, cwd)

/-- C1: when, after a successfully executed prefix of the batch, a task's
invocation throws (synchronously or asynchronously), the dispatcher logs
the task name with the original error, re-raises a new error identifying
the failed task, and invokes no task listed after it. -/
theorem runTasks_failure_halts (u b : NamedTasks) (args : Args)
    (pre : List String) (n : String) (rest : List String) (cwd : String)
    (t : Task) (e : JsErr)
    (h₀ : (runTasks u b pre args cwd).outcome = .ok)
    (hres : resolveTask u b (normalizeTaskName n) = some t)
    (hac : awaitCatch (t (mkTaskContext args (normalizeTaskName n))
      (runTasks u b pre args cwd).cwd).fst = some e) :
    runTasks u b (pre ++ n :: rest) args cwd =
      ⟨(runTasks u b pre args cwd).executed ++ [normalizeTaskName n],
        (runTasks u b pre args cwd).logs ++
          [debugLog (normalizeTaskName n), threwLog (normalizeTaskName n) e],
        .raised (threwMsg (normalizeTaskName n)),
        (t (mkTaskContext args (normalizeTaskName n))
          (runTasks u b pre args cwd).cwd).snd⟩ := by
  rw [runTasks_append u b args (n :: rest) pre cwd h₀,
    runTasks_cons_failed u b args n rest ((runTasks u b pre args cwd).cwd)
      t e hres hac]

/-- Concrete instance of `runTasks_failure_halts`: a throwing task stops
the batch before the following task. -/
theorem runTasks_failure_halts_witness :
    runTasks [("boom", throwingTask (.str "kaboom")), ("later", trivialTask)]
        [] ["boom", "later"] [] "/w" =
      ⟨["boom"], [debugLog "boom", threwLog "boom" (.str "kaboom")],
        .raised (threwMsg "boom"), "/w"⟩ := by
  have h := runTasks_failure_halts
    [("boom", throwingTask (.str "kaboom")), ("later", trivialTask)] [] []
    [] "boom" ["later"] "/w" (throwingTask (.str "kaboom")) (.str "kaboom")
    rfl rfl rfl
  simpa using h

/-- C2: when, after a successfully executed prefix of the batch, a
requested name resolves in neither registry, the dispatcher logs an error
naming the missing task and pointing at the help task, then returns
without raising; names listed after it are not executed and the prefix's
results stand. -/
theorem runTasks_missing_soft_stop (u b : NamedTasks) (args : Args)
    (pre : List String) (n : String) (rest : List String) (cwd : String)
    (h₀ : (runTasks u b pre args cwd).outcome = .ok)
    (hres : resolveTask u b (normalizeTaskName n) = none) :
    runTasks u b (pre ++ n :: rest) args cwd =
      ⟨(runTasks u b pre args cwd).executed,
        (runTasks u b pre args cwd).logs ++
          [missingLog (normalizeTaskName n)],
        .halted,
        (runTasks u b pre args cwd).cwd⟩ := by
  rw [runTasks_append u b args (n :: rest) pre cwd h₀,
    runTasks_cons_missing u b args n rest
      ((runTasks u b pre args cwd).cwd) hres]
  simp

/-- Concrete instance of `runTasks_missing_soft_stop`: an earlier task
runs, the unresolved name halts the batch without raising, the later task
never runs. -/
theorem runTasks_missing_soft_stop_witness :
    runTasks [("a", trivialTask)] [] ["a", "missing", "never"] [] "/w" =
      ⟨["a"], [debugLog "a", missingLog "missing"], .halted, "/w"⟩ := by
  have h := runTasks_missing_soft_stop [("a", trivialTask)] [] [] ["a"]
    "missing" ["never"] "/w" rfl rfl
  simpa using h

/-- C3 fails on the code: the dash normalization replaces only the first
dash (JavaScript `replace` with a string pattern is not global), so
requesting `x-y-z` looks up `x_y-z`, and a task registered under `x_y_z`
is not found — the batch halts instead of running it. -/
theorem dash_normalization_first_dash_only :
    normalizeTaskName "x-y-z" = "x_y-z" ∧
    (resolveTask [("x_y_z", trivialTask)] []
      (normalizeTaskName "x-y-z")).isNone = true ∧
    runTasks [("x_y_z", trivialTask)] [] ["x-y-z"] [] "/w" =
      ⟨[], [missingLog "x_y-z"], .halted, "/w"⟩ :=
  ⟨rfl, rfl, rfl⟩

/-- C4: resolution precedence — an exact user-registry key wins, then the
`task_`-prefixed user key, then the builtin registry; in particular a
user registry holding only `task_build` serves a request for `build`. -/
theorem resolveTask_precedence (u b : NamedTasks) (name : String) :
    (∀ t : Task, findTask u name = some t →
      resolveTask u b name = some t) ∧
    (findTask u name = none → ∀ t : Task,
      findTask u ("task_" ++ name) = some t →
      resolveTask u b name = some t) ∧
    (findTask u name = none → findTask u ("task_" ++ name) = none →
      resolveTask u b name = findTask b name) ∧
    (∀ tb : Task, resolveTask [("task_build", tb)] b "build" = some tb) := by
  refine ⟨?_, ?_, ?_, ?_⟩
  · intro t h
    simp only [resolveTask, h]
  · intro h t h2
    simp only [resolveTask, h, h2]
  · intro h h2
    simp only [resolveTask, h, h2]
  · intro tb
    rfl

/-- Concrete instance of `resolveTask_precedence`: an exact key and a
`task_`-prefixed key both serve a request for `build`. -/
theorem resolveTask_precedence_witness :
    resolveTask [("build", trivialTask)] [] "build" = some trivialTask ∧
    resolveTask [("task_build", trivialTask)] [] "build" =
      some trivialTask := by
  constructor
  · exact (resolveTask_precedence [("build", trivialTask)] [] "build").1
      trivialTask rfl
  · exact (resolveTask_precedence
      [("task_build", trivialTask)] [] "build").2.1 rfl trivialTask rfl


/-- The spawn record of a single `_exec` with no env override: the
space-split argv runs under exactly the ambient environment. -/
theorem _exec_fst (fs : Fs) (c : String) :
    (_exec fs c none).fst =
      ⟨splitOnSpace c, fs.env, fs.run (splitOnSpace c) fs.env⟩ := by
  unfold _exec
  dsimp only
  split <;> rfl

/-- Every spawn of a command sequence runs under exactly the ambient
environment (the loop never forwards an env override). -/
theorem execList_env (fs : Fs) :
    ∀ cs : List String, ∀ r ∈ (execList fs cs).fst, r.env = fs.env := by
  intro cs
  induction cs with
  | nil => intro r hr; simp [execList] at hr
  | cons x cs ih =>
    intro r hr
    have hx : (_exec fs x none).fst.env = fs.env := by rw [_exec_fst]
    unfold execList at hr
    cases h1 : (_exec fs x none).snd with
    | error e =>
      rw [h1] at hr
      simp at hr
      rw [hr, hx]
    | ok out =>
      rw [h1] at hr
      cases h2 : (execList fs cs).snd with
      | error e =>
        rw [h2] at hr
        simp at hr
        rcases hr with rfl | hr
        · rw [hx]
        · exact ih r hr
      | ok outs =>
        rw [h2] at hr
        simp at hr
        rcases hr with rfl | hr
        · rw [hx]
        · exact ih r hr

/-- The catch/finally wrapping leaves the spawn trace of the body
unchanged. -/
theorem execWrap_spawned (fs : Fs) (o : ExecOpts) (c : String)
    (b : BodyOut) : (execWrap fs o c b).spawned = b.spawned := by
  unfold execWrap
  dsimp only
  split
  · rfl
  · split <;> rfl

/-- Every spawn made by one executor body runs under exactly the ambient
environment. -/
theorem execBody_spawned_env (fs : Fs) (o : ExecOpts) (cwd : String) :
    ∀ r ∈ (execBody fs o cwd).spawned, r.env = fs.env := by
  intro r hr
  unfold execBody at hr
  cases hcmd : o.cmd with
  | str s =>
    rw [hcmd] at hr
    dsimp only at hr
    cases h1 : (_exec fs s none).snd with
    | error e =>
      rw [h1] at hr
      dsimp only at hr
      simp at hr
      rw [hr, _exec_fst]
    | ok out =>
      rw [h1] at hr
      dsimp only at hr
      simp at hr
      rw [hr, _exec_fst]
  | list cs =>
    rw [hcmd] at hr
    dsimp only at hr
    cases h2 : (execList fs cs).snd with
    | error e =>
      rw [h2] at hr
      dsimp only at hr
      exact execList_env fs cs r hr
    | ok outs =>
      rw [h2] at hr
      dsimp only at hr
      exact execList_env fs cs r hr
  | fn f =>
    rw [hcmd] at hr
    dsimp only at hr
    cases h3 : awaitCatch (f cwd).fst with
    | none => rw [h3] at hr; dsimp only at hr; simp at hr
    | some e => rw [h3] at hr; dsimp only at hr; simp at hr

/-- C7 fails on the code: `exec` never forwards its `env` option to
`_exec`, so every spawned command sees exactly the ambient environment,
whatever `env` the caller supplied. -/
theorem exec_env_never_forwarded (fs : Fs) (cwd : String)
    (inp : ExecInput) :
    ∀ r ∈ (exec fs cwd inp).spawned, r.env = fs.env := by
  intro r hr
  unfold exec at hr
  dsimp only at hr
  cases htd : truthyStr (normalizeExecInput inp).dir with
  | none =>
    rw [htd] at hr
    dsimp only at hr
    rw [execWrap_spawned] at hr
    exact execBody_spawned_env fs (normalizeExecInput inp) cwd r hr
  | some d =>
    rw [htd] at hr
    dsimp only at hr
    by_cases hdd : d ∈ fs.dirs
    · rw [if_pos hdd, execWrap_spawned] at hr
      exact execBody_spawned_env fs (normalizeExecInput inp) d r hr
    · rw [if_neg hdd] at hr
      simp at hr

/-- Concrete instance of `exec_env_never_forwarded`: an executor call
supplying `FOO=bar` spawns its command with the ambient (empty)
environment, so the override is never applied and the command reports
the variable as unset. -/
theorem exec_env_never_forwarded_witness :
    (⟨["printenv"], [], ⟨true, 0, "unset", ""⟩⟩ : SpawnRec).env = [] ∧
    (exec ⟨[], [], fun _ env => ⟨true, 0,
        (env.lookup "FOO").getD "unset", ""⟩, false, .resolved⟩ "/w"
      (.opts ⟨.str "printenv", none, some [("FOO", "bar")], none,
        none⟩)).result = .ok "unset" := by
  constructor
  · exact exec_env_never_forwarded
      ⟨[], [], fun _ env => ⟨true, 0,
        (env.lookup "FOO").getD "unset", ""⟩, false, .resolved⟩ "/w"
      (.opts ⟨.str "printenv", none, some [("FOO", "bar")], none, none⟩)
      ⟨["printenv"], [], ⟨true, 0, "unset", ""⟩⟩ (by decide)
  · rfl


/-- The result of `_exec` on a succeeding command. -/
theorem _exec_ok (fs : Fs) (c : String)
    (h : (fs.run (splitOnSpace c) fs.env).success = true) :
    _exec fs c none =
      (⟨splitOnSpace c, fs.env, fs.run (splitOnSpace c) fs.env⟩,
        .ok (fs.run (splitOnSpace c) fs.env).stdout) := by
  unfold _exec
  dsimp only
  rw [if_pos h]

/-- The result of `_exec` on a failing command: an error carrying the
command text, the exit code and the decoded stderr. -/
theorem _exec_fail (fs : Fs) (c : String)
    (h : (fs.run (splitOnSpace c) fs.env).success = false) :
    _exec fs c none =
      (⟨splitOnSpace c, fs.env, fs.run (splitOnSpace c) fs.env⟩,
        .error (.runFail c (fs.run (splitOnSpace c) fs.env).code
          (fs.run (splitOnSpace c) fs.env).stderr)) := by
  unfold _exec
  dsimp only
  rw [if_neg (by simp [h])]

/-- A command sequence whose members all succeed spawns each in order and
collects each one's stdout. -/
theorem execList_all_ok (fs : Fs) :
    ∀ cs : List String,
      (∀ x ∈ cs, (fs.run (splitOnSpace x) fs.env).success = true) →
      execList fs cs =
        (cs.map fun x =>
          ⟨splitOnSpace x, fs.env, fs.run (splitOnSpace x) fs.env⟩,
          .ok (cs.map fun x => (fs.run (splitOnSpace x) fs.env).stdout)) := by
  intro cs
  induction cs with
  | nil => intro _; rfl
  | cons x cs ih =>
    intro h
    unfold execList
    rw [_exec_ok fs x (h x (List.mem_cons_self x cs)),
      ih fun y hy => h y (List.mem_cons_of_mem x hy)]
    rfl

/-- C5: in a command sequence `[A, B, C]` where `A` succeeds and `B`
fails, `A` is spawned and its output captured in the trace, the raised
error carries `B`'s exit code and decoded stderr (inside the executor's
wrapping error, after being logged), and `C` is never spawned. -/
theorem exec_sequence_halts_at_failure (fs : Fs) (cwd : String)
    (a b c : String)
    (ha : (fs.run (splitOnSpace a) fs.env).success = true)
    (hb : (fs.run (splitOnSpace b) fs.env).success = false) :
    exec fs cwd (.plainList [a, b, c]) =
      ⟨.error (.wrapped (.runFail b (fs.run (splitOnSpace b) fs.env).code
          (fs.run (splitOnSpace b) fs.env).stderr)),
        cwd,
        [⟨splitOnSpace a, fs.env, fs.run (splitOnSpace a) fs.env⟩,
          ⟨splitOnSpace b, fs.env, fs.run (splitOnSpace b) fs.env⟩],
        [],
        [.runFail b (fs.run (splitOnSpace b) fs.env).code
          (fs.run (splitOnSpace b) fs.env).stderr]⟩ := by
  have hl : execList fs [a, b, c] =
      ([⟨splitOnSpace a, fs.env, fs.run (splitOnSpace a) fs.env⟩,
        ⟨splitOnSpace b, fs.env, fs.run (splitOnSpace b) fs.env⟩],
       .error (.runFail b (fs.run (splitOnSpace b) fs.env).code
          (fs.run (splitOnSpace b) fs.env).stderr)) := by
    unfold execList
    rw [_exec_ok fs a ha]
    unfold execList
    rw [_exec_fail fs b hb]
  unfold exec normalizeExecInput
  dsimp only
  unfold execBody
  dsimp only
  rw [hl]
  rfl

/-- Concrete instance of `exec_sequence_halts_at_failure`. -/
theorem exec_sequence_halts_at_failure_witness :
    exec ⟨[], [], fun argv _ =>
        if argv = ["b"] then ⟨false, 2, "", "boom"⟩
        else ⟨true, 0, "okA", ""⟩, false, .resolved⟩ "/w"
      (.plainList ["a", "b", "c"]) =
      ⟨.error (.wrapped (.runFail "b" 2 "boom")), "/w",
        [⟨["a"], [], ⟨true, 0, "okA", ""⟩⟩,
          ⟨["b"], [], ⟨false, 2, "", "boom"⟩⟩],
        [], [.runFail "b" 2 "boom"]⟩ := by
  exact exec_sequence_halts_at_failure ⟨[], [], fun argv _ =>
      if argv = ["b"] then ⟨false, 2, "", "boom"⟩
      else ⟨true, 0, "okA", ""⟩, false, .resolved⟩ "/w" "a" "b" "c"
    (by decide) (by decide)

/-- C6 as stated fails on the code: with `silent` left unset (hence not
explicitly `false`) the output of a succeeding command is returned but
the console echo list is empty — the code echoes only under an explicit
`silent: false`. -/
theorem exec_echo_counterexample :
    (exec ⟨[], [], fun _ _ => ⟨true, 0, "hi", ""⟩, false, .resolved⟩ "/w"
      (.plainStr "c")).result = .ok "hi" ∧
    (exec ⟨[], [], fun _ _ => ⟨true, 0, "hi", ""⟩, false, .resolved⟩ "/w"
      (.plainStr "c")).echoed = [] :=
  ⟨rfl, rfl⟩

/-- C6 amended: a single-string command's captured stdout is returned,
and it is echoed to the console exactly when the per-command `silent`
flag is explicitly `false` (a bare argv array being a sequence of command
strings, the sequence's newline-joined output is echoed under the same
condition). -/
theorem exec_echo_iff_silent_false (fs : Fs) (cwd : String)
    (env : Option (List (String × String))) (silent logError : Option Bool) :
    (∀ s : String, (fs.run (splitOnSpace s) fs.env).success = true →
      exec fs cwd (.opts ⟨.str s, none, env, silent, logError⟩) =
        ⟨.ok (fs.run (splitOnSpace s) fs.env).stdout, cwd,
          [⟨splitOnSpace s, fs.env, fs.run (splitOnSpace s) fs.env⟩],
          if silent = some false
            then [(fs.run (splitOnSpace s) fs.env).stdout] else [],
          []⟩) ∧
    (∀ cs : List String,
      (∀ x ∈ cs, (fs.run (splitOnSpace x) fs.env).success = true) →
      exec fs cwd (.opts ⟨.list cs, none, env, silent, logError⟩) =
        ⟨.ok (String.intercalate "\n"
            (cs.map fun x => (fs.run (splitOnSpace x) fs.env).stdout)),
          cwd,
          cs.map fun x =>
            ⟨splitOnSpace x, fs.env, fs.run (splitOnSpace x) fs.env⟩,
          if silent = some false
            then [String.intercalate "\n"
              (cs.map fun x => (fs.run (splitOnSpace x) fs.env).stdout)]
            else [],
          []⟩) := by
  constructor
  · intro s hs
    unfold exec normalizeExecInput
    dsimp only
    unfold execBody
    dsimp only
    rw [_exec_ok fs s hs]
    rfl
  · intro cs h
    unfold exec normalizeExecInput
    dsimp only
    unfold execBody
    dsimp only
    rw [execList_all_ok fs cs h]
    rfl

/-- Concrete instance of `exec_echo_iff_silent_false`: with
`silent: false` the output is echoed, with `silent` unset it is not. -/
theorem exec_echo_iff_silent_false_witness :
    exec ⟨[], [], fun _ _ => ⟨true, 0, "hi", ""⟩, false, .resolved⟩ "/w"
      (.opts ⟨.str "c", none, none, some false, none⟩) =
      ⟨.ok "hi", "/w", [⟨["c"], [], ⟨true, 0, "hi", ""⟩⟩], ["hi"], []⟩ ∧
    exec ⟨[], [], fun _ _ => ⟨true, 0, "hi", ""⟩, false, .resolved⟩ "/w"
      (.opts ⟨.str "c", none, none, none, none⟩) =
      ⟨.ok "hi", "/w", [⟨["c"], [], ⟨true, 0, "hi", ""⟩⟩], [], []⟩ := by
  constructor
  · exact (exec_echo_iff_silent_false
      ⟨[], [], fun _ _ => ⟨true, 0, "hi", ""⟩, false, .resolved⟩ "/w"
      none (some false) none).1 "c" (by decide)
  · exact (exec_echo_iff_silent_false
      ⟨[], [], fun _ _ => ⟨true, 0, "hi", ""⟩, false, .resolved⟩ "/w"
      none none none).1 "c" (by decide)

/-- C9: after any executor call that set a truthy `dir` override, the
working directory equals its value from before the call, whether the call
returned or threw; and when entering the override directory itself fails,
the raised error names the directory and the command, and nothing is
spawned, echoed or logged. -/
theorem exec_dir_restores_cwd (fs : Fs) (cwd0 : String) (o : ExecOpts)
    (d : String) (hd : truthyStr o.dir = some d) (hc : cwd0 ∈ fs.dirs) :
    (exec fs cwd0 (.opts o)).cwd = cwd0 ∧
    (d ∉ fs.dirs →
      exec fs cwd0 (.opts o) =
        ⟨.error (.chdirFail d (cmdDisplay o.cmd)), cwd0, [], [], []⟩) := by
  unfold exec normalizeExecInput
  dsimp only
  rw [hd]
  dsimp only
  by_cases hdd : d ∈ fs.dirs
  · rw [if_pos hdd]
    constructor
    · unfold execWrap
      dsimp only
      rw [hd]
      dsimp only
      rw [if_pos hc]
    · intro hcon
      exact absurd hdd hcon
  · rw [if_neg hdd]
    exact ⟨rfl, fun _ => rfl⟩

/-- Concrete instance of `exec_dir_restores_cwd`: a call whose `dir`
points at a missing directory leaves the working directory unchanged and
raises the directory-naming error without spawning anything. -/
theorem exec_dir_restores_cwd_witness :
    (exec ⟨["/w"], [], fun _ _ => ⟨true, 0, "", ""⟩, false, .resolved⟩ "/w"
      (.opts ⟨.str "c", some "/d", none, none, none⟩)).cwd = "/w" ∧
    exec ⟨["/w"], [], fun _ _ => ⟨true, 0, "", ""⟩, false, .resolved⟩ "/w"
      (.opts ⟨.str "c", some "/d", none, none, none⟩) =
      ⟨.error (.chdirFail "/d" "c"), "/w", [], [], []⟩ := by
  have h := exec_dir_restores_cwd
    ⟨["/w"], [], fun _ _ => ⟨true, 0, "", ""⟩, false, .resolved⟩ "/w"
    ⟨.str "c", some "/d", none, none, none⟩ "/d" (by decide) (by decide)
  exact ⟨h.1, h.2 (by decide)⟩

/-- C8: whatever the batch does — finish, stop at an unresolved name, or
raise a task failure — `run` puts the process back in the working
directory observed immediately before the call. -/
theorem run_restores_cwd (fs : Fs) (cwd0 : String) (opts : RunOpts)
    (args : TaskArgsModel) (hc : cwd0 ∈ fs.dirs) :
    (run fs cwd0 opts args).cwd = cwd0 := by
  unfold run
  dsimp only
  cases hsw : setWorkingDir fs opts cwd0 with
  | error e => rfl
  | ok cwd1 =>
    dsimp only
    rw [if_pos hc]

/-- Concrete instance of `run_restores_cwd`: a run whose single task
throws still restores the original working directory. -/
theorem run_restores_cwd_witness :
    (run ⟨["/w", "/p/sub"], [], fun _ _ => ⟨true, 0, "", ""⟩, false,
        .resolved⟩ "/w"
      ⟨some "sub", none, none, [("x", throwingTask (.str "t"))],
        some "file:///p/s.ts"⟩
      ⟨["x"], false, none, []⟩).cwd = "/w" :=
  run_restores_cwd _ "/w" _ _ (by decide)

/-- C10: an invocation that returns a non-promise value is treated as a
failure — the dispatcher logs it with a `TypeError`, raises the
task-failure error and halts the batch; and the executor fails the same
way when its `cmd` is a synchronous function returning a non-promise. -/
theorem nonPromise_reported_as_error :
    (∀ (u b : NamedTasks) (args : Args) (n : String) (rest : List String)
        (cwd : String) (t : Task),
      resolveTask u b (normalizeTaskName n) = some t →
      (t (mkTaskContext args (normalizeTaskName n)) cwd).fst = .nonPromise →
      runTasks u b (n :: rest) args cwd =
        ⟨[normalizeTaskName n],
          [debugLog (normalizeTaskName n),
            threwLog (normalizeTaskName n) catchTypeErr],
          .raised (threwMsg (normalizeTaskName n)),
          (t (mkTaskContext args (normalizeTaskName n)) cwd).snd⟩) ∧
    (∀ (fs : Fs) (cwd : String) (f : String → TaskOutcome × String),
      (f cwd).fst = .nonPromise →
      (exec fs cwd (.opts ⟨.fn f, none, none, none, none⟩)).result =
        .error (.wrapped (.jsErr catchTypeErr))) := by
  constructor
  · intro u b args n rest cwd t hres hnp
    exact runTasks_cons_failed u b args n rest cwd t catchTypeErr hres
      (by rw [hnp]; rfl)
  · intro fs cwd f hnp
    unfold exec normalizeExecInput
    dsimp only
    unfold execBody
    dsimp only
    rw [hnp]
    rfl

/-- Concrete instance of `nonPromise_reported_as_error`: a synchronous
task returning `undefined` is reported as having thrown, and so is a
synchronous executor function command. -/
theorem nonPromise_reported_as_error_witness :
    runTasks [("x", nonPromiseTask)] [] ["x"] [] "/w" =
      ⟨["x"], [debugLog "x", threwLog "x" catchTypeErr],
        .raised (threwMsg "x"), "/w"⟩ ∧
    (exec ⟨[], [], fun _ _ => ⟨true, 0, "", ""⟩, false, .resolved⟩ "/w"
      (.opts ⟨.fn fun cwd => (.nonPromise, cwd), none, none, none,
        none⟩)).result = .error (.wrapped (.jsErr catchTypeErr)) := by
  constructor
  · exact nonPromise_reported_as_error.1 [("x", nonPromiseTask)] [] [] "x"
      [] "/w" nonPromiseTask rfl rfl
  · exact nonPromise_reported_as_error.2
      ⟨[], [], fun _ _ => ⟨true, 0, "", ""⟩, false, .resolved⟩ "/w"
      (fun cwd => (.nonPromise, cwd)) rfl

end DenoScript
